import Mathlib

/-
Verification of the event-consumer pipeline of the todo application.

The program under study has two consumer backends that keep a search
index synchronised with task mutation events:

* a poll-based (Kafka) backend: `Server.ListenAndServe` polls messages,
  decodes a JSON envelope `struct { Type string; Value internal.Task }`,
  dispatches on `Type` to `task.Index` / `task.Delete`, and commits the
  message on success (or on decode failure, to drop poison messages);
  `Server.Shutdown` closes a stop channel and waits for the loop's done
  signal or the context deadline;
* a subscribe-based (Redis pub/sub) backend: the loop ranges over the
  subscription channel, dispatches on the message's channel name, decodes
  the payload per branch (`internal.Task` for created/updated, a bare
  `string` id for deleted), and only logs apply errors; there is no
  acknowledgment mechanism.

The embedding models JSON documents as parsed value trees and reproduces
the relevant semantics of Go's `encoding/json` unmarshalling for the
target types used by the consumers (struct, string, bool, int, and the
spec's nullable timestamps).
-/

namespace TodoIndexer

/-- Modelled from the spec: the `dates` component of a Task — "a start
timestamp and a due timestamp, both optional/nullable" (the
`internal.Dates` type of the domain package is not among the sources).
Timestamps are kept as opaque strings. -/
structure Dates where
  start : Option String
  due : Option String
deriving DecidableEq, Repr

/-- Modelled from the spec: the Task domain entity of §3 (the
`internal.Task` struct of the domain package is not among the sources;
its field names `ID`, `Description`, `Priority`, `Dates`, `IsDone` are
visible in the consumers and in `internal/rest/task.go`). `priority` is
an enumerated ordinal, kept as an integer. -/
structure Task where
  ID : String
  Description : String
  Priority : Int
  Dates : Dates
  IsDone : Bool
deriving DecidableEq, Repr

/-- The zero value of `Dates` (Go zero value of the struct). -/
def zeroDates : Dates := ⟨none, none⟩

/-- The zero value of `Task` (Go zero value of the struct). -/
def zeroTask : Task := ⟨"", "", 0, zeroDates, false⟩

/-- A parsed JSON document. Messages whose bytes are not valid JSON are
represented by `Option Json` being `none` at the call sites. -/
inductive Json where
  | null
  | bool (b : Bool)
  | num (n : Int)
  | str (s : String)
  | arr (elems : List Json)
  | obj (fields : List (String × Json))

/-- ASCII lower-casing of one character (the struct field names matched
by `encoding/json` are plain ASCII identifiers). -/
def lowerChar (c : Char) : Char :=
  if 65 ≤ c.toNat ∧ c.toNat ≤ 90 then Char.ofNat (c.toNat + 32) else c

/-- ASCII lower-casing of a string, character by character. -/
def lowerString (s : String) : String :=
  ⟨s.data.map lowerChar⟩

/-- Go's `encoding/json` field matching: exact name or case-insensitive
fallback. -/
def fieldMatch (key field : String) : Bool :=
  key == field || lowerString key == lowerString field

/-- Go unmarshalling of a JSON value into a `string` target holding
`cur`: `null` leaves the target unchanged, a JSON string overwrites it,
anything else is an `UnmarshalTypeError`. -/
def goDecodeString (cur : String) : Json → Except String String
  | Json.null => Except.ok cur
  | Json.str s => Except.ok s
  | _ => Except.error "json: cannot unmarshal value into Go value of type string"

/-- Go unmarshalling of a JSON value into a `bool` target holding `cur`. -/
def goDecodeBool (cur : Bool) : Json → Except String Bool
  | Json.null => Except.ok cur
  | Json.bool b => Except.ok b
  | _ => Except.error "json: cannot unmarshal value into Go value of type bool"

/-- Go unmarshalling of a JSON value into an integer target holding
`cur` (the domain's `Priority` is an integer type). -/
def goDecodeInt (cur : Int) : Json → Except String Int
  | Json.null => Except.ok cur
  | Json.num n => Except.ok n
  | _ => Except.error "json: cannot unmarshal value into Go value of type internal.Priority"

/-- Modelled from the spec: unmarshalling of one nullable timestamp
(`time.Time` accepts a JSON string; `null` leaves the target unchanged;
any other JSON value is a type error). -/
def goDecodeTimestamp (cur : Option String) : Json → Except String (Option String)
  | Json.null => Except.ok cur
  | Json.str s => Except.ok (some s)
  | _ => Except.error "json: cannot unmarshal value into Go value of type time.Time"

/-- Folds the fields of a JSON object into a `Dates` struct, Go style:
matching fields are decoded and overwrite the current value, unknown
fields are ignored. -/
def decodeDatesFields : List (String × Json) → Dates → Except String Dates
  | [], d => Except.ok d
  | (k, v) :: rest, d =>
    if fieldMatch k "Start" then
      (goDecodeTimestamp d.start v).bind fun s => decodeDatesFields rest ⟨s, d.due⟩
    else if fieldMatch k "Due" then
      (goDecodeTimestamp d.due v).bind fun s => decodeDatesFields rest ⟨d.start, s⟩
    else decodeDatesFields rest d

/-- Go unmarshalling of a JSON value into a `Dates` struct target. -/
def goDecodeDates (cur : Dates) : Json → Except String Dates
  | Json.null => Except.ok cur
  | Json.obj fs => decodeDatesFields fs cur
  | _ => Except.error "json: cannot unmarshal value into Go value of type internal.Dates"

/-- Folds the fields of a JSON object into a `Task` struct, Go style. -/
def decodeTaskFields : List (String × Json) → Task → Except String Task
  | [], t => Except.ok t
  | (k, v) :: rest, t =>
    if fieldMatch k "ID" then
      (goDecodeString t.ID v).bind fun s =>
        decodeTaskFields rest ⟨s, t.Description, t.Priority, t.Dates, t.IsDone⟩
    else if fieldMatch k "Description" then
      (goDecodeString t.Description v).bind fun s =>
        decodeTaskFields rest ⟨t.ID, s, t.Priority, t.Dates, t.IsDone⟩
    else if fieldMatch k "Priority" then
      (goDecodeInt t.Priority v).bind fun n =>
        decodeTaskFields rest ⟨t.ID, t.Description, n, t.Dates, t.IsDone⟩
    else if fieldMatch k "Dates" then
      (goDecodeDates t.Dates v).bind fun d =>
        decodeTaskFields rest ⟨t.ID, t.Description, t.Priority, d, t.IsDone⟩
    else if fieldMatch k "IsDone" then
      (goDecodeBool t.IsDone v).bind fun b =>
        decodeTaskFields rest ⟨t.ID, t.Description, t.Priority, t.Dates, b⟩
    else decodeTaskFields rest t

/-- Go unmarshalling of a JSON value into an `internal.Task` struct
target: `null` leaves the target unchanged, a JSON object populates the
matching fields, and any other JSON value (in particular a bare string)
is an `UnmarshalTypeError`. -/
def goDecodeTask (cur : Task) : Json → Except String Task
  | Json.null => Except.ok cur
  | Json.obj fs => decodeTaskFields fs cur
  | _ => Except.error "json: cannot unmarshal value into Go value of type internal.Task"

/-- The Kafka consumer's envelope target,
`var evt struct { Type string; Value internaldomain.Task }`. -/
structure Event where
  type : String
  value : Task
deriving DecidableEq, Repr

/-- The zero value of the envelope struct. -/
def zeroEvent : Event := ⟨"", zeroTask⟩

/-- Folds the fields of a JSON object into the envelope struct, Go
style. -/
def decodeEventFields : List (String × Json) → Event → Except String Event
  | [], e => Except.ok e
  | (k, v) :: rest, e =>
    if fieldMatch k "Type" then
      (goDecodeString e.type v).bind fun s => decodeEventFields rest ⟨s, e.value⟩
    else if fieldMatch k "Value" then
      (goDecodeTask e.value v).bind fun t => decodeEventFields rest ⟨e.type, t⟩
    else decodeEventFields rest e

/-- Go unmarshalling of a JSON value into the envelope struct target. -/
def goDecodeEvent (cur : Event) : Json → Except String Event
  | Json.null => Except.ok cur
  | Json.obj fs => decodeEventFields fs cur
  | _ => Except.error "json: cannot unmarshal value into Go value of type struct"

/-- `json.NewDecoder(bytes.NewReader(msg.Value)).Decode(&evt)` of the
Kafka consumer: `none` stands for bytes that are not well-formed JSON. -/
def decodeMsg : Option Json → Except String Event
  | none => Except.error "invalid character"
  | some j => goDecodeEvent zeroEvent j

/-- One observable action of a consumer iteration: a call into the
index applier (`task.Index` / `task.Delete`), a broker commit
(`Consumer.CommitMessage`), or a log line. -/
inductive Call where
  | index (t : Task)
  | delete (id : String)
  | commit
  | log (msg : String)
deriving DecidableEq, Repr

/-- The applier calls among a list of actions (commits and log lines
filtered out). -/
def applierCalls (cs : List Call) : List Call :=
  cs.filter fun c =>
    match c with
    | Call.index _ => true
    | Call.delete _ => true
    | _ => false

/-- The Kafka consumer's dispatch on a successfully decoded envelope:
the `switch evt.Type` sets `ok` from the apply result, and
`if ok { log "Consumed"; commit }` follows. `f t = true` means
`task.Index(ctx, t)` returned `nil`, `g id = true` means
`task.Delete(ctx, id)` returned `nil`. -/
def handleDecoded (f : Task → Bool) (g : String → Bool) (evt : Event) : List Call :=
  let step : List Call × Bool :=
    if evt.type = "tasks.event.updated" ∨ evt.type = "tasks.event.created" then
      ([Call.index evt.value], f evt.value)
    else if evt.type = "tasks.event.deleted" then
      ([Call.delete evt.value.ID], g evt.value.ID)
    else
      ([], false)
  step.1 ++ (if step.2 then [Call.log "Consumed", Call.commit] else [])

/-- One message iteration of the Kafka consumer: decode the envelope;
on decode failure log and commit (poison-message drop); otherwise
dispatch. -/
def handleMessage (f : Task → Bool) (g : String → Bool) (raw : Option Json) : List Call :=
  match decodeMsg raw with
  | Except.error _ => [Call.log "Ignoring message, invalid", Call.commit]
  | Except.ok evt => handleDecoded f g evt

/-- What one iteration of the Kafka consumer's `select` observes:
the stop channel `closeC` being closed, `Poll` returning something that
is not a `*kafka.Message`, or a message with the given (possibly
unparseable) body. -/
inductive LoopInput where
  | closeSignal
  | nonMessage
  | message (raw : Option Json)

/-- The actions emitted by the Kafka consumer loop over a sequence of
iteration inputs: the loop exits at the first observation of the stop
channel and never touches later inputs. -/
def loopCalls (f : Task → Bool) (g : String → Bool) : List LoopInput → List Call
  | [] => []
  | LoopInput.closeSignal :: _ => []
  | LoopInput.nonMessage :: rest => loopCalls f g rest
  | LoopInput.message raw :: rest => handleMessage f g raw ++ loopCalls f g rest

/-- Whether the Kafka consumer loop has exited and sent its done signal
(`doneC <- struct{}{}`) over the given iteration inputs: true exactly
when the stop channel was observed. -/
def loopDone : List LoopInput → Bool
  | [] => false
  | LoopInput.closeSignal :: _ => true
  | _ :: rest => loopDone rest

/-- State of the Kafka backend's `Server` relevant to `Shutdown`:
whether `closeC` has already been closed. -/
structure KafkaServer where
  closeClosed : Bool
deriving DecidableEq, Repr

/-- The first event `Shutdown`'s `select` observes while waiting:
the context's deadline expiring, or the loop's done signal. -/
inductive WaitEvent where
  | deadlineExpired
  | doneSignal
deriving DecidableEq, Repr

/-- The context error wrapped by `Shutdown` on deadline expiry. -/
inductive CtxErr where
  | deadlineExceeded
deriving DecidableEq, Repr

/-- An `internal.WrapErrorf` error value: the wrapped original error and
the format message. -/
structure WrappedErr where
  orig : CtxErr
  msg : String
deriving DecidableEq, Repr

/-- Go's `close` on a channel whose closed-state is `closed`: closing an
already-closed channel panics (`none`); otherwise the channel is closed. -/
def closeChan (closed : Bool) : Option Bool :=
  if closed then none else some true

/-- The Kafka backend's `Server.Shutdown`: unconditionally `close(s.closeC)`
(a panic — `none` — if `closeC` is already closed), then wait for either
the context deadline (return a wrapped timeout error) or the loop's done
signal (return `nil`). -/
def kafkaShutdown (s : KafkaServer) (ev : WaitEvent) :
    Option (Except WrappedErr Unit × KafkaServer) :=
  match closeChan s.closeClosed with
  | none => none
  | some _ =>
    match ev with
    | WaitEvent.deadlineExpired =>
      some (Except.error ⟨CtxErr.deadlineExceeded, "context.Done"⟩, ⟨true⟩)
    | WaitEvent.doneSignal => some (Except.ok (), ⟨true⟩)

/-- `var task internaldomain.Task; ...Decode(&task)` of the Redis
consumer's created/updated branch (`none` stands for a payload that is
not well-formed JSON). -/
def decodePayloadTask : Option Json → Except String Task
  | none => Except.error "invalid character"
  | some j => goDecodeTask zeroTask j

/-- `var id string; ...Decode(&id)` of the Redis consumer's deleted
branch. -/
def decodePayloadString : Option Json → Except String String
  | none => Except.error "invalid character"
  | some j => goDecodeString "" j

/-- One message iteration of the Redis pub/sub consumer: log the
reception, switch on the message's channel name, decode the payload per
branch, and call the applier; an apply error is only logged. There is no
acknowledgment operation in this backend. -/
def redisHandle (f : Task → Bool) (g : String → Bool)
    (channel : String) (payload : Option Json) : List Call :=
  Call.log ("Received message: %s" ++ channel) ::
    (if channel = "tasks.event.updated" ∨ channel = "tasks.event.created" then
      match decodePayloadTask payload with
      | Except.error _ => [Call.log "Ignoring message, invalid"]
      | Except.ok task =>
        Call.index task :: (if f task then [] else [Call.log "Couldn't index task"])
    else if channel = "tasks.event.deleted" then
      match decodePayloadString payload with
      | Except.error _ => [Call.log "Ignoring message, invalid"]
      | Except.ok id =>
        Call.delete id :: (if g id then [] else [Call.log "Couldn't delete task"])
    else [])

/-- A message delivered on the Redis subscription channel. -/
structure RMsg where
  channel : String
  payload : Option Json

/-- The Redis consumer's `for msg := range ch` loop: each received
message is handled exactly once; nothing is ever re-enqueued. -/
def redisLoop (f : Task → Bool) (g : String → Bool) : List RMsg → List Call
  | [] => []
  | m :: rest => redisHandle f g m.channel m.payload ++ redisLoop f g rest

/-- Modelled from the spec: the observable state of the search index —
a projection from task IDs to their indexed snapshots (the
`internal/elasticsearch` package is not among the sources). -/
def IndexState : Type := String → Option Task

/-- Modelled from the spec: the Index Applier's `Upsert`
(`elasticsearch.Task.Index`, not among the sources): "overwrite
semantics, not incremental" — the entry for the task's ID is
created/overwritten with the task snapshot. -/
def esUpsert (idx : IndexState) (t : Task) : IndexState :=
  fun id => if id = t.ID then some t else idx id

/-- Modelled from the spec: the Index Applier's `Remove`
(`elasticsearch.Task.Delete`, not among the sources): the entry for the
ID is removed; removing an absent ID is not an error. -/
def esRemove (idx : IndexState) (rid : String) : IndexState :=
  fun id => if id = rid then none else idx id

/-- The envelope of the spec's created end-to-end scenario,
already parsed: the object
of Type "tasks.event.created" and Value the object with ID "abc" and
Description "buy milk". -/
def createdEnvelope : Json :=
  Json.obj [("Type", Json.str "tasks.event.created"),
    ("Value", Json.obj [("ID", Json.str "abc"), ("Description", Json.str "buy milk")])]

/-- The envelope of the spec's deleted end-to-end scenario, already
parsed: the object of Type "tasks.event.deleted" whose Value is the bare
string identifier "abc". -/
def deletedStrEnvelope : Json :=
  Json.obj [("Type", Json.str "tasks.event.deleted"), ("Value", Json.str "abc")]

/-- An envelope with a well-formed Value but an unrecognized type tag. -/
def unknownEnvelope : Json :=
  Json.obj [("Type", Json.str "tasks.event.mystery"),
    ("Value", Json.obj [("ID", Json.str "abc")])]

/-- The Task carried by `createdEnvelope` once decoded. -/
def taskAbc : Task := ⟨"abc", "buy milk", 0, zeroDates, false⟩

/-- The Kafka consumer loop never consumes inputs past the first
observation of the stop channel: actions are those of the prefix. -/
theorem loopCalls_append_close (f : Task → Bool) (g : String → Bool)
    (pre post : List LoopInput) :
    loopCalls f g (pre ++ LoopInput.closeSignal :: post) =
      loopCalls f g (pre ++ [LoopInput.closeSignal]) := by
  induction pre with
  | nil => rfl
  | cons x rest ih => cases x <;> simp [loopCalls, ih]

/-- The Kafka consumer loop signals its done channel once the stop
channel appears among its observed inputs. -/
theorem loopDone_append_close (pre post : List LoopInput) :
    loopDone (pre ++ LoopInput.closeSignal :: post) = true := by
  induction pre with
  | nil => rfl
  | cons x rest ih => cases x <;> simp [loopDone, ih]

/-- The Redis handler never performs a broker commit: the backend has no
acknowledgment operation. -/
theorem commit_not_in_redisHandle (f : Task → Bool) (g : String → Bool)
    (ch : String) (p : Option Json) : Call.commit ∉ redisHandle f g ch p := by
  unfold redisHandle
  split_ifs with h1 h2
  · cases hdt : decodePayloadTask p with
    | error e => simp
    | ok task => cases hft : f task <;> simp
  · cases hds : decodePayloadString p with
    | error e => simp
    | ok id => cases hgi : g id <;> simp
  · simp

/-- C8: for every task T, applying the Index Applier's upsert with T
twice leaves the search index in the same observable state as applying
it once (overwrite semantics, not incremental). -/
theorem upsert_idempotent (idx : IndexState) (t : Task) :
    esUpsert (esUpsert idx t) t = esUpsert idx t := by
  funext id
  by_cases h : id = t.ID <;> simp [esUpsert, h]

/-- C10: on the poll-based (Kafka) backend, the first call to Shutdown
succeeds in closing the stop channel, but a second call panics because
Shutdown unconditionally closes the already-closed `closeC` channel;
Shutdown is safe to call at most once per Server. -/
theorem double_shutdown_panics (ev1 ev2 : WaitEvent) :
    (kafkaShutdown ⟨false⟩ ev1).isSome = true ∧
    (kafkaShutdown ⟨false⟩ ev1).bind (fun r => kafkaShutdown r.2 ev2) = none := by
  cases ev1 <;> cases ev2 <;> exact ⟨rfl, rfl⟩

/-- C7: when the stop channel is not yet closed, Shutdown returns a
timeout error (a wrap of the context's deadline-exceeded error) if the
deadline expires before the loop's completion notification, and returns
nil if the completion notification arrives first; in either case it
returns rather than blocking forever. -/
theorem shutdown_deadline_behavior (s : KafkaServer) (h : s.closeClosed = false) :
    kafkaShutdown s WaitEvent.deadlineExpired =
      some (Except.error ⟨CtxErr.deadlineExceeded, "context.Done"⟩, ⟨true⟩) ∧
    kafkaShutdown s WaitEvent.doneSignal = some (Except.ok (), ⟨true⟩) := by
  cases s
  subst h
  exact ⟨rfl, rfl⟩

/-- Witness for C7 at the concrete fresh server. -/
theorem shutdown_deadline_behavior_witness :
    kafkaShutdown ⟨false⟩ WaitEvent.deadlineExpired =
      some (Except.error ⟨CtxErr.deadlineExceeded, "context.Done"⟩, ⟨true⟩) ∧
    kafkaShutdown ⟨false⟩ WaitEvent.doneSignal = some (Except.ok (), ⟨true⟩) :=
  shutdown_deadline_behavior ⟨false⟩ rfl

/-- C6: after Shutdown returns nil (which requires the loop's done
signal, sent only when the loop exits on the stop signal), no further
applier calls occur even if more messages are pending: the actions of
the loop are independent of everything delivered after the stop signal
is observed, and the completion flag is set. -/
theorem no_applier_calls_after_shutdown (f : Task → Bool) (g : String → Bool)
    (pre post : List LoopInput) :
    loopCalls f g (pre ++ LoopInput.closeSignal :: post) =
      loopCalls f g (pre ++ [LoopInput.closeSignal]) ∧
    loopDone (pre ++ LoopInput.closeSignal :: post) = true ∧
    kafkaShutdown ⟨false⟩ WaitEvent.doneSignal = some (Except.ok (), ⟨true⟩) :=
  ⟨loopCalls_append_close f g pre post, loopDone_append_close pre post, rfl⟩

/-- C1: for every consumed message that decodes successfully, both
consumers dispatch on the envelope's type: a created or updated event
produces exactly one upsert call (`task.Index`) with the decoded Task, a
deleted event produces exactly one remove call (`task.Delete`) with the
decoded ID, and any other type produces no applier call — in the Kafka
consumer by the decoded `evt.Type`, in the Redis consumer by the
message's channel name with the branch's own payload decoding. -/
theorem dispatch_by_event_type (f : Task → Bool) (g : String → Bool)
    (raw : Option Json) (evt : Event) (hdec : decodeMsg raw = Except.ok evt) :
    ((evt.type = "tasks.event.created" ∨ evt.type = "tasks.event.updated") →
      applierCalls (handleMessage f g raw) = [Call.index evt.value]) ∧
    (evt.type = "tasks.event.deleted" →
      applierCalls (handleMessage f g raw) = [Call.delete evt.value.ID]) ∧
    (evt.type ≠ "tasks.event.created" → evt.type ≠ "tasks.event.updated" →
      evt.type ≠ "tasks.event.deleted" →
      applierCalls (handleMessage f g raw) = []) ∧
    (∀ (ch : String) (p : Option Json) (task : Task),
      (ch = "tasks.event.created" ∨ ch = "tasks.event.updated") →
      decodePayloadTask p = Except.ok task →
      applierCalls (redisHandle f g ch p) = [Call.index task]) ∧
    (∀ (p : Option Json) (id : String),
      decodePayloadString p = Except.ok id →
      applierCalls (redisHandle f g "tasks.event.deleted" p) = [Call.delete id]) ∧
    (∀ (ch : String) (p : Option Json),
      ch ≠ "tasks.event.created" → ch ≠ "tasks.event.updated" → ch ≠ "tasks.event.deleted" →
      applierCalls (redisHandle f g ch p) = []) := by
  refine ⟨?_, ?_, ?_, ?_, ?_, ?_⟩
  · rintro (h | h) <;>
      · cases hf : f evt.value <;>
          simp [handleMessage, hdec, handleDecoded, applierCalls, h, hf]
  · intro h
    cases hg : g evt.value.ID <;>
      simp [handleMessage, hdec, handleDecoded, applierCalls, h, hg]
  · intro h1 h2 h3
    simp [handleMessage, hdec, handleDecoded, applierCalls, h1, h2, h3]
  · rintro ch p task (h | h) hp <;>
      · cases hf : f task <;>
          simp [redisHandle, applierCalls, hp, hf, h]
  · intro p id hp
    cases hg : g id <;> simp [redisHandle, applierCalls, hp, hg]
  · intro ch p h1 h2 h3
    simp [redisHandle, applierCalls, h1, h2, h3]

/-- Witness for C1 at the spec's created end-to-end scenario. -/
theorem dispatch_by_event_type_witness :
    applierCalls (handleMessage (fun _ => true) (fun _ => true) (some createdEnvelope)) =
      [Call.index taskAbc] :=
  (dispatch_by_event_type (fun _ => true) (fun _ => true) (some createdEnvelope)
      ⟨"tasks.event.created", taskAbc⟩ rfl).1 (Or.inl rfl)

/-- C2: in the Kafka consumer, when the apply call for a successfully
decoded message returns an error, the message is not committed, and the
loop proceeds to the next poll iteration instead of stopping. -/
theorem no_ack_on_apply_failure (f : Task → Bool) (g : String → Bool)
    (raw : Option Json) (evt : Event) (hdec : decodeMsg raw = Except.ok evt)
    (hidx : f evt.value = false) (hdel : g evt.value.ID = false) :
    Call.commit ∉ handleMessage f g raw ∧
    (∀ rest, loopCalls f g (LoopInput.message raw :: rest) =
      handleMessage f g raw ++ loopCalls f g rest) ∧
    (∀ rest, loopDone (LoopInput.message raw :: rest) = loopDone rest) := by
  refine ⟨?_, fun rest => rfl, fun rest => rfl⟩
  simp only [handleMessage, hdec]
  unfold handleDecoded
  split_ifs with h1 h2 <;> simp [hidx, hdel]

/-- Witness for C2: a created event whose upsert fails is not
committed. -/
theorem no_ack_on_apply_failure_witness :
    Call.commit ∉ handleMessage (fun _ => false) (fun _ => false) (some createdEnvelope) :=
  (no_ack_on_apply_failure (fun _ => false) (fun _ => false) (some createdEnvelope)
      ⟨"tasks.event.created", taskAbc⟩ rfl rfl rfl).1

/-- C3: in the Kafka consumer, a message whose envelope fails to decode
is logged and committed (so the broker never redelivers it), and the
loop keeps processing the remaining inputs unchanged. -/
theorem poison_message_acked (f : Task → Bool) (g : String → Bool)
    (raw : Option Json) (e : String) (hdec : decodeMsg raw = Except.error e) :
    handleMessage f g raw = [Call.log "Ignoring message, invalid", Call.commit] ∧
    Call.commit ∈ handleMessage f g raw ∧
    (∀ rest, loopCalls f g (LoopInput.message raw :: rest) =
      handleMessage f g raw ++ loopCalls f g rest) ∧
    (∀ rest, loopDone (LoopInput.message raw :: rest) = loopDone rest) := by
  have h1 : handleMessage f g raw = [Call.log "Ignoring message, invalid", Call.commit] := by
    simp [handleMessage, hdec]
  exact ⟨h1, by simp [h1], fun rest => rfl, fun rest => rfl⟩

/-- Witness for C3 at a message whose bytes are not well-formed JSON. -/
theorem poison_message_acked_witness :
    handleMessage (fun _ => true) (fun _ => true) none =
      [Call.log "Ignoring message, invalid", Call.commit] :=
  (poison_message_acked (fun _ => true) (fun _ => true) none "invalid character" rfl).1

/-- C4 counterexample: in the poll-based (Kafka) consumer, the envelope
of Type "tasks.event.deleted" whose Value is the bare string "abc" does
NOT lead to a remove call — decoding the string into the `Task`-typed
`Value` field fails, so the message takes the poison path and is
committed with no applier call at all. -/
theorem deleted_bare_string_no_remove_kafka :
    decodeMsg (some deletedStrEnvelope) =
      Except.error "json: cannot unmarshal value into Go value of type internal.Task" ∧
    applierCalls (handleMessage (fun _ => true) (fun _ => true) (some deletedStrEnvelope)) = [] ∧
    handleMessage (fun _ => true) (fun _ => true) (some deletedStrEnvelope) =
      [Call.log "Ignoring message, invalid", Call.commit] :=
  ⟨rfl, rfl, rfl⟩

/-- C4 amended: the poll-based (Kafka) consumer fails to decode a
deleted envelope whose Value is the bare string "abc" and acknowledges
it with no applier call; only the subscribe-based (Redis) consumer,
given the bare string payload "abc" on channel "tasks.event.deleted",
decodes the ID and calls remove with "abc" exactly once (that backend
has no acknowledgment operation). -/
theorem deleted_bare_string_amended (f : Task → Bool) (g : String → Bool) :
    handleMessage f g (some deletedStrEnvelope) =
      [Call.log "Ignoring message, invalid", Call.commit] ∧
    applierCalls (redisHandle f g "tasks.event.deleted" (some (Json.str "abc"))) =
      [Call.delete "abc"] := by
  refine ⟨rfl, ?_⟩
  cases hg : g "abc" <;>
    simp [redisHandle, decodePayloadString, goDecodeString, applierCalls, hg]

/-- C5 counterexample: a successfully decoded envelope with the
unrecognized type "tasks.event.mystery" produces no applier call, but it
is NOT committed — the Kafka consumer only commits when an apply
succeeded, so the message is not acknowledged and remains redeliverable. -/
theorem unknown_type_not_acked :
    decodeMsg (some unknownEnvelope) =
      Except.ok ⟨"tasks.event.mystery", ⟨"abc", "", 0, zeroDates, false⟩⟩ ∧
    Call.commit ∉ handleMessage (fun _ => true) (fun _ => true) (some unknownEnvelope) := by
  refine ⟨rfl, ?_⟩
  have h : handleMessage (fun _ => true) (fun _ => true) (some unknownEnvelope) = [] := rfl
  simp [h]

/-- C5 amended: a successfully decoded envelope with an unrecognized
type is inert — no applier call, no error, and the loop goes on
unchanged — but the message is not committed by the loop, so it is not
protected from redelivery. -/
theorem unknown_type_inert_uncommitted (f : Task → Bool) (g : String → Bool)
    (raw : Option Json) (evt : Event) (hdec : decodeMsg raw = Except.ok evt)
    (h1 : evt.type ≠ "tasks.event.created") (h2 : evt.type ≠ "tasks.event.updated")
    (h3 : evt.type ≠ "tasks.event.deleted") :
    handleMessage f g raw = [] ∧
    Call.commit ∉ handleMessage f g raw ∧
    (∀ rest, loopCalls f g (LoopInput.message raw :: rest) = loopCalls f g rest) ∧
    (∀ rest, loopDone (LoopInput.message raw :: rest) = loopDone rest) := by
  have hm : handleMessage f g raw = [] := by
    simp [handleMessage, hdec, handleDecoded, h1, h2, h3]
  refine ⟨hm, by simp [hm], fun rest => ?_, fun rest => rfl⟩
  simp [loopCalls, hm]

/-- Witness for the amended C5 at the concrete unrecognized-type
envelope. -/
theorem unknown_type_inert_uncommitted_witness :
    handleMessage (fun _ => true) (fun _ => true) (some unknownEnvelope) = [] :=
  (unknown_type_inert_uncommitted (fun _ => true) (fun _ => true) (some unknownEnvelope)
      ⟨"tasks.event.mystery", ⟨"abc", "", 0, zeroDates, false⟩⟩ rfl
      (by decide) (by decide) (by decide)).1

/-- C9: in the subscribe-based (Redis pub/sub) backend, an apply failure
changes nothing but an extra log line — the applier calls made are
independent of the apply results, no commit/acknowledgment operation
exists anywhere in the loop, and a failed deleted event is handled by
merely logging after the (already consumed) message's remove call, so it
is never redelivered. -/
theorem redis_apply_failure_logged_only (f f' : Task → Bool) (g g' : String → Bool)
    (ch : String) (p : Option Json) (msgs : List RMsg) :
    Call.commit ∉ redisHandle f g ch p ∧
    applierCalls (redisHandle f g ch p) = applierCalls (redisHandle f' g' ch p) ∧
    Call.commit ∉ redisLoop f g msgs ∧
    (∀ id, decodePayloadString p = Except.ok id → g id = false →
      redisHandle f g "tasks.event.deleted" p =
        [Call.log "Received message: %stasks.event.deleted", Call.delete id,
         Call.log "Couldn't delete task"]) := by
  refine ⟨commit_not_in_redisHandle f g ch p, ?_, ?_, ?_⟩
  · unfold redisHandle
    split_ifs with hc1 hc2
    · cases hdt : decodePayloadTask p with
      | error e => simp [applierCalls]
      | ok task =>
        cases hf : f task <;> cases hf' : f' task <;> simp [applierCalls, hf, hf']
    · cases hds : decodePayloadString p with
      | error e => simp [applierCalls]
      | ok id =>
        cases hg : g id <;> cases hg' : g' id <;> simp [applierCalls, hg, hg']
    · simp [applierCalls]
  · induction msgs with
    | nil => simp [redisLoop]
    | cons m rest ih =>
      simp only [redisLoop, List.mem_append]
      exact fun hmem => hmem.elim
        (fun hin => commit_not_in_redisHandle f g m.channel m.payload hin)
        (fun hin => ih hin)
  · intro id hid hgid
    simp [redisHandle, hid, hgid]

/-- Witness for C9: a deleted event whose remove call fails is only
logged, with the remove call made exactly once. -/
theorem redis_apply_failure_logged_only_witness :
    redisHandle (fun _ => true) (fun _ => false) "tasks.event.deleted" (some (Json.str "abc")) =
      [Call.log "Received message: %stasks.event.deleted", Call.delete "abc",
       Call.log "Couldn't delete task"] :=
  (redis_apply_failure_logged_only (fun _ => true) (fun _ => true) (fun _ => false)
      (fun _ => false) "tasks.event.deleted" (some (Json.str "abc")) []).2.2.2 "abc" rfl rfl

end TodoIndexer
